import Mathlib

/-!
Verification of the devservers operator against its specification.

The definitions below are a shallow embedding, in Lean, of the Python
sources under src/src/devservers/.  Conventions of the embedding:

* Python dicts with string keys are association lists `List (String × α)`
  in insertion order; assignment to an existing key replaces the value in
  place, assignment to a fresh key appends (as CPython dicts do).
* Python strings are `String` / `List Char`.  `str.lower` is modelled on
  the ASCII range, which is the range the sanitiser's character class
  `[a-z0-9-]` can keep.
* Machine integers do not occur; durations and instants are `Int` seconds.
* Fallible code returns `Option` / `Except`; a caught exception is the
  `none` / `.error` branch.
* `datetime` instants (already parsed by the Python standard library) are
  modelled as `Int` seconds since an arbitrary epoch; a missing
  `metadata.creationTimestamp` key is `none`.
* `devservers/utils/time.py` (`parse_duration`) is not among the staged
  source files; it is modelled from the spec, see `parse_duration` below.
-/

/-! ## Python dict model -/

/-- Lookup of a key in an insertion-ordered dict (association list). -/
def dlookup (k : String) : List (String × α) → Option α
  | [] => none
  | p :: rest => if p.1 = k then some p.2 else dlookup k rest

/-- Python dict assignment d[k] = v: replace in place when the key is
present, append otherwise.  Dicts built from [] through this function
have unique keys, so replacing the first occurrence is replacing the
only one. -/
def dictInsert : List (String × α) → String → α → List (String × α)
  | [], k, v => [(k, v)]
  | p :: rest, k, v => if p.1 = k then (k, v) :: rest else p :: dictInsert rest k v

/-! ## src/src/devservers/crds/base.py : _is_status_subset -/

/-- Embedding of _is_status_subset: an empty superset is rejected up
front; otherwise every (key, value) pair of the subset must be present in
the superset with an equal value. -/
def is_status_subset [DecidableEq α] (subset superset : List (String × α)) : Bool :=
  if superset.isEmpty then false
  else subset.all (fun kv => decide (dlookup kv.1 superset = some kv.2))

/-! ## Sanitising helpers of build_deployment (deployment.py lines 136-156) -/

/-- Python str.lower restricted to ASCII letters. -/
def pyLower (c : Char) : Char :=
  if 'A' ≤ c ∧ c ≤ 'Z' then Char.ofNat (c.toNat + 32) else c

/-- The character class [a-z0-9-] of the sanitising regexes. -/
def allowedChar (c : Char) : Bool :=
  ('a' ≤ c && c ≤ 'z') || ('0' ≤ c && c ≤ '9') || c = '-'

/-- re.sub(r"[^a-z0-9-]", "-", value.lower()): lower-case each character
and replace anything outside the class by one hyphen. -/
def sanitizeChars (s : List Char) : List Char :=
  s.map (fun c => let d := pyLower c; if allowedChar d then d else '-')

/-- re.sub(r"-+", "-", s): collapse each run of hyphens to a single one. -/
def collapseHyphens : List Char → List Char
  | [] => []
  | [c] => [c]
  | c :: d :: rest =>
      if c = '-' ∧ d = '-' then collapseHyphens (d :: rest)
      else c :: collapseHyphens (d :: rest)

/-- Remove leading hyphens (the left half of str.strip("-")). -/
def lstripHyphens : List Char → List Char
  | [] => []
  | c :: rest => if c = '-' then lstripHyphens rest else c :: rest

/-- Remove trailing hyphens (the right half of str.strip("-")). -/
def rstripHyphens : List Char → List Char
  | [] => []
  | c :: rest =>
      match rstripHyphens rest with
      | [] => if c = '-' then [] else [c]
      | r => c :: r

/-- str.strip("-"): both ends. -/
def stripHyphens (s : List Char) : List Char :=
  lstripHyphens (rstripHyphens s)

/-- Remove leading and trailing slashes, mount_path.strip("/"). -/
def lstripSlash : List Char → List Char
  | [] => []
  | c :: rest => if c = '/' then lstripSlash rest else c :: rest

def rstripSlash : List Char → List Char
  | [] => []
  | c :: rest =>
      match rstripSlash rest with
      | [] => if c = '/' then [] else [c]
      | r => c :: r

def stripSlashes (s : List Char) : List Char :=
  lstripSlash (rstripSlash s)

/-- The inner helper _sanitize of build_deployment: class-substitute on the
lower-cased string, collapse hyphen runs, strip hyphens at both ends. -/
def sanitize (s : List Char) : List Char :=
  stripHyphens (collapseHyphens (sanitizeChars s))

/-! ## SHA-1 (hashlib.sha1, used by _stable_volume_name)

A byte is a `Nat` below 256; a word is a `Nat` below 2^32. -/

def w32 (n : Nat) : Nat := n % 4294967296

def rotl (k x : Nat) : Nat :=
  (w32 x * 2 ^ k + w32 x / 2 ^ (32 - k)) % 4294967296

/-- Big-endian byte rendering of v on n bytes. -/
def beBytes (n v : Nat) : List Nat :=
  (List.range n).map (fun i => v / 2 ^ (8 * (n - 1 - i)) % 256)

/-- Split a list into chunks of k+1 elements (last one possibly shorter). -/
def chunksOf (k : Nat) (l : List α) : List (List α) :=
  match l with
  | [] => []
  | a :: rest => (a :: rest.take k) :: chunksOf k (rest.drop k)
termination_by l.length
decreasing_by
  simp only [List.length_drop, List.length_cons]
  omega

def bytesToWord (bs : List Nat) : Nat :=
  bs.foldl (fun a b => a * 256 + b % 256) 0

/-- Merkle-Damgard padding: one 0x80 byte, zeros, 8-byte big-endian bit
length, to a multiple of 64 bytes. -/
def sha1Pad (msg : List Nat) : List Nat :=
  let r := msg.length % 64
  let k := if r ≤ 55 then 55 - r else 119 - r
  msg ++ [128] ++ List.replicate k 0 ++ beBytes 8 (8 * msg.length)

/-- Extend the 16 block words to the 80-word schedule. -/
def sha1Schedule (ws : List Nat) : List Nat :=
  (List.range 64).foldl
    (fun acc _ =>
      let n := acc.length
      acc ++ [rotl 1 ((acc.getD (n - 3) 0 ^^^ acc.getD (n - 8) 0) ^^^
        (acc.getD (n - 14) 0 ^^^ acc.getD (n - 16) 0))])
    ws

def sha1F (i b c d : Nat) : Nat :=
  if i < 20 then (b &&& c) ||| ((4294967295 - w32 b) &&& d)
  else if i < 40 then (b ^^^ c) ^^^ d
  else if i < 60 then ((b &&& c) ||| (b &&& d)) ||| (c &&& d)
  else (b ^^^ c) ^^^ d

def sha1K (i : Nat) : Nat :=
  if i < 20 then 0x5A827999
  else if i < 40 then 0x6ED9EBA1
  else if i < 60 then 0x8F1BBCDC
  else 0xCA62C1D6

structure Sha1State where
  h0 : Nat
  h1 : Nat
  h2 : Nat
  h3 : Nat
  h4 : Nat
deriving DecidableEq

def sha1Init : Sha1State :=
  ⟨0x67452301, 0xEFCDAB89, 0x98BADCFE, 0x10325476, 0xC3D2E1F0⟩

def sha1Block (st : Sha1State) (block : List Nat) : Sha1State :=
  let ws := sha1Schedule ((chunksOf 3 block).map bytesToWord)
  let fin := ws.enum.foldl
    (fun (p : Nat × Nat × Nat × Nat × Nat) iw =>
      let (a, b, c, d, e) := p
      let temp := w32 (rotl 5 a + sha1F iw.1 b c d + e + sha1K iw.1 + iw.2)
      (temp, a, rotl 30 b, c, d))
    (st.h0, st.h1, st.h2, st.h3, st.h4)
  ⟨w32 (st.h0 + fin.1), w32 (st.h1 + fin.2.1), w32 (st.h2 + fin.2.2.1),
   w32 (st.h3 + fin.2.2.2.1), w32 (st.h4 + fin.2.2.2.2)⟩

def sha1Digest (msg : List Nat) : Sha1State :=
  (chunksOf 63 (sha1Pad msg)).foldl sha1Block sha1Init

/-- The lowercase hex digit of a nibble: 0-9 then a-f. -/
def hexChar (n : Nat) : Char :=
  if n % 16 < 10 then Char.ofNat (48 + n % 16) else Char.ofNat (87 + n % 16)

/-- The eight hex characters of a 32-bit word, most significant first. -/
def wordHex (w : Nat) : List Char :=
  [hexChar (w / 16 ^ 7), hexChar (w / 16 ^ 6), hexChar (w / 16 ^ 5),
   hexChar (w / 16 ^ 4), hexChar (w / 16 ^ 3), hexChar (w / 16 ^ 2),
   hexChar (w / 16), hexChar w]

/-- hashlib.sha1(...).hexdigest() as a character list (40 characters). -/
def sha1Hex (msg : List Nat) : List Char :=
  let st := sha1Digest msg
  wordHex st.h0 ++ wordHex st.h1 ++ wordHex st.h2 ++ wordHex st.h3 ++ wordHex st.h4

/-! ## _stable_volume_name (deployment.py lines 140-156) -/

/-- The sanitised mount path: strip slashes, lower, class-substitute,
collapse hyphen runs, strip hyphens. -/
def sanitizedPath (mountPath : List Char) : List Char :=
  stripHyphens (collapseHyphens (sanitizeChars (stripSlashes mountPath)))

/-- raw_name: "vol-<claim>" with "-<sanitised path>" appended when the
sanitised path is non-empty. -/
def rawName (claimName mountPath : List Char) : List Char :=
  let base := ("vol-".data) ++ claimName
  match sanitizedPath mountPath with
  | [] => base
  | sp => base ++ '-' :: sp

/-- _sanitize(raw_name) or "vol". -/
def sanitizedName (claimName mountPath : List Char) : List Char :=
  match sanitize (rawName claimName mountPath) with
  | [] => "vol".data
  | s => s

/-- raw_name.encode(): UTF-8 bytes; for the ASCII range modelled here,
one byte per character. -/
def rawBytes (claimName mountPath : List Char) : List Nat :=
  (rawName claimName mountPath).map Char.toNat

/-- Embedding of _stable_volume_name. -/
def stable_volume_name (claimName mountPath : String) : String :=
  let sanitized := sanitizedName claimName.data mountPath.data
  if sanitized.length ≤ 63 then ⟨sanitized⟩
  else
    let hashSuffix := (sha1Hex (rawBytes claimName.data mountPath.data)).take 6
    let trimLen := max 1 (63 - hashSuffix.length - 1)
    let pre := rstripHyphens (sanitized.take trimLen)
    let pre := if pre.isEmpty then sanitized.take trimLen else pre
    ⟨pre ++ '-' :: hashSuffix⟩

/-! ## src/src/devservers/operator/devserver/resources/deployment.py -/

/-- One entry of spec.volumes or flavor.spec.volumes:
claimName, mountPath, readOnly (absent means False). -/
structure UserVolume where
  claimName : String
  mountPath : String
  readOnly : Option Bool
deriving DecidableEq, Repr

/-- A volumeMount of the devserver container. -/
structure VolumeMount where
  name : String
  mountPath : String
  readOnly : Option Bool
  subPath : Option String
  mode : Option Nat
deriving DecidableEq, Repr

inductive VolumeSource
  | emptyDir
  | configMap (name : String) (defaultMode : Option Nat)
  | secret (secretName : String) (defaultMode : Option Nat)
  | persistentVolumeClaim (claimName : String)
deriving DecidableEq, Repr

/-- One pod volume. -/
structure PodVolume where
  name : String
  source : VolumeSource
deriving DecidableEq, Repr

/-- The fields of a DevServer spec that build_deployment reads. -/
structure DevServerSpec where
  image : Option String
  sshPublicKey : Option String
  volumes : List UserVolume
deriving DecidableEq, Repr

/-- The fields of flavor["spec"] that build_deployment reads. -/
structure FlavorSpec where
  nodeSelector : Option (List (String × String))
  tolerations : Option (List String)
  resources : List (String × String)
  volumes : List UserVolume
deriving DecidableEq, Repr

/-- The built workload, with the deployment-specific scaffolding flattened
into fields. -/
structure Workload where
  name : String
  ns : String
  kind : String
  replicas : Nat
  strategy : String
  image : String
  initImage : String
  sshPublicKey : String
  nodeSelector : Option (List (String × String))
  tolerations : Option (List String)
  resources : List (String × String)
  volumes : List PodVolume
  volumeMounts : List VolumeMount
deriving DecidableEq, Repr

/-- The devserver container's volumeMounts as laid out in the literal pod
template (deployment.py lines 61-87).  0o755 = 493, 0o600 = 384. -/
def base_volume_mounts : List VolumeMount :=
  [⟨"home", "/home/dev", none, none, none⟩,
   ⟨"bin", "/opt/bin", none, none, none⟩,
   ⟨"startup-script", "/devserver", some true, none, none⟩,
   ⟨"login-script", "/devserver-login/user_login.sh", some true, some "user_login.sh", some 493⟩,
   ⟨"sshd-config", "/opt/ssh/sshd_config", some true, some "sshd_config", none⟩,
   ⟨"host-keys", "/opt/ssh/hostkeys", some true, none, none⟩]

/-- The pod volumes of the literal template (deployment.py lines 97-124). -/
def base_volumes (name : String) : List PodVolume :=
  [⟨"bin", .emptyDir⟩,
   ⟨"startup-script", .configMap (name ++ "-startup-script") (some 493)⟩,
   ⟨"login-script", .configMap (name ++ "-login-script") (some 493)⟩,
   ⟨"sshd-config", .configMap (name ++ "-sshd-config") none⟩,
   ⟨"host-keys", .secret (name ++ "-host-keys") (some 384)⟩]

/-- merged_volumes: a dict keyed by mountPath seeded from the flavor's
volume list and updated from the spec's volume list, so spec entries win
and, within one list, later entries win. -/
def merge_volumes (flavorVolumes userVolumes : List UserVolume) : List (String × UserVolume) :=
  userVolumes.foldl (fun d v => dictInsert d v.mountPath v)
    (flavorVolumes.foldl (fun d v => dictInsert d v.mountPath v) [])

/-- final_volumes: the merged dict's values in insertion order. -/
def final_volumes (flavorVolumes userVolumes : List UserVolume) : List UserVolume :=
  (merge_volumes flavorVolumes userVolumes).map Prod.snd

/-- The pod volume appended for one merged entry. -/
def pvcVolume (v : UserVolume) : PodVolume :=
  ⟨stable_volume_name v.claimName v.mountPath, .persistentVolumeClaim v.claimName⟩

/-- The volumeMount appended for one merged entry; readOnly defaults to
False. -/
def pvcMount (v : UserVolume) : VolumeMount :=
  ⟨stable_volume_name v.claimName v.mountPath, v.mountPath, some (v.readOnly.getD false), none, none⟩

/-- Embedding of build_deployment.  final_volumes is the merged dict's
value list; the default home empty-dir is appended when the merged list is
empty or no entry targets /home/dev; when an entry does target /home/dev
the default home mount is filtered out of the container's volumeMounts;
each merged entry contributes a PVC-backed pod volume and a volumeMount. -/
def build_deployment (name ns : String) (spec : DevServerSpec) (flavor : FlavorSpec)
    (defaultDevserverImage staticDependenciesImage : String) : Workload :=
  let finalVolumes := final_volumes flavor.volumes spec.volumes
  let homeVolumeSpecified := finalVolumes.any (fun v => v.mountPath == "/home/dev")
  let volumes := base_volumes name ++
    (if finalVolumes.isEmpty || !homeVolumeSpecified then [⟨"home", .emptyDir⟩] else [])
  let mounts := base_volume_mounts
  let volumes := volumes ++ finalVolumes.map pvcVolume
  let mounts :=
    (if !finalVolumes.isEmpty && homeVolumeSpecified then
      mounts.filter (fun vm => vm.name ≠ "home")
    else mounts) ++ finalVolumes.map pvcMount
  { name := name
    ns := ns
    kind := "Deployment"
    replicas := 1
    strategy := "Recreate"
    image := spec.image.getD defaultDevserverImage
    initImage := staticDependenciesImage
    sshPublicKey := spec.sshPublicKey.getD ""
    nodeSelector := match flavor.nodeSelector with
      | none => none
      | some l => if l.isEmpty then none else some l
    tolerations := match flavor.tolerations with
      | none => none
      | some l => if l.isEmpty then none else some l
    resources := flavor.resources
    volumes := volumes
    volumeMounts := mounts }

/-! ## devservers/utils/time.py : parse_duration -/

/-- Seconds of one duration suffix; s, m, h, d are the accepted units. -/
def unitSeconds : Char → Option Int
  | 's' => some 1
  | 'm' => some 60
  | 'h' => some 3600
  | 'd' => some 86400
  | _ => none

def isDigitChar (c : Char) : Bool := '0' ≤ c && c ≤ '9'

def digitsToNat (ds : List Char) : Nat :=
  ds.foldl (fun acc c => acc * 10 + (c.toNat - 48)) 0

/-- Modelled from the spec: parse_duration lives in devservers/utils/time.py,
which is not among the staged source files.  The spec says the duration
parser accepts integer-suffix forms s, m, h and d and combinations such as
1h30m (examples: 4h, 30m, 2s); anything else fails (a ValueError in the
source, none here).  The value is the sum of the groups, in seconds.
The fuel argument only bounds the recursion depth: every group consumes
at least its unit character, so with fuel = length of the input the
0-fuel branch is never reached. -/
def parse_duration_go : Nat → List Char → Option Int
  | _, [] => some 0
  | fuel + 1, c :: rest =>
      if isDigitChar c then
        let ds := c :: rest.takeWhile isDigitChar
        match rest.dropWhile isDigitChar with
        | [] => none
        | u :: rest2 =>
            match unitSeconds u with
            | none => none
            | some k =>
                match parse_duration_go fuel rest2 with
                | none => none
                | some acc => some ((digitsToNat ds : Int) * k + acc)
      else none
  | 0, _ :: _ => none

/-- Modelled from the spec (see parse_duration_go): the whole string must
consist of at least one digits-suffix group. -/
def parse_duration (s : String) : Option Int :=
  if s.data.isEmpty then none else parse_duration_go s.data.length s.data

/-! ## src/src/devservers/operator/devserver/validation.py -/

/-- Embedding of validate_and_normalize_ttl: a falsy TTL (absent or empty)
is accepted; otherwise the string must parse as a duration that is
positive and at most 7 days, anything else raises a PermanentError
(.error here). -/
def validate_and_normalize_ttl (ttl : Option String) : Except String Unit :=
  match ttl with
  | none => .ok ()
  | some s =>
      if s = "" then .ok ()
      else
        match parse_duration s with
        | none => .error "Invalid timeToLive: could not parse duration"
        | some d =>
            if d ≤ 0 then .error "Invalid timeToLive: TTL must be a positive duration."
            else if d > 7 * 86400 then .error "Invalid timeToLive: TTL cannot exceed 7 days."
            else .ok ()

/-- One element of spec.volumes as the validator sees it: either not a
dict at all, or a dict whose mountPath may be absent or empty. -/
inductive PyVolumeEntry
  | nonDict
  | dict (claimName : Option String) (mountPath : Option String) (readOnly : Option Bool)
deriving DecidableEq, Repr

/-- The walk of validate_volumes: seen collects the mount paths already
accepted; the first non-dict entry, falsy mountPath or duplicate mount
path raises a PermanentError. -/
def validate_volumes_walk : List PyVolumeEntry → List String → Except String Unit
  | [], _ => .ok ()
  | .nonDict :: _, _ => .error "Volume must be a dictionary."
  | .dict _ mp _ :: rest, seen =>
      match mp with
      | none => .error "Volume is missing required field mountPath."
      | some p =>
          if p = "" then .error "Volume is missing required field mountPath."
          else if p ∈ seen then .error ("Duplicate mount path " ++ p ++ " is not allowed.")
          else validate_volumes_walk rest (seen ++ [p])

/-- Embedding of validate_volumes: a falsy volumes value (absent or the
empty list) passes; otherwise each entry must be a dict with a truthy,
unique mountPath. -/
def validate_volumes (volumes : Option (List PyVolumeEntry)) : Except String Unit :=
  match volumes with
  | none => .ok ()
  | some [] => .ok ()
  | some l => validate_volumes_walk l []

/-! ## src/src/devservers/operator/devserver/lifecycle.py -/

/-- What is_expired reads from one listed DevServer object.
creationTimestamp none models a missing metadata.creationTimestamp key
(the KeyError branch); the instant is in seconds. -/
structure DevServerObject where
  name : String
  ns : String
  creationTimestamp : Option Int
  timeToLive : Option String
deriving DecidableEq, Repr

/-- Embedding of is_expired: a missing creationTimestamp or an unparsable
TTL is caught and reported as not expired; a falsy TTL means no
expiration; otherwise expired iff now is strictly past creation + TTL. -/
def is_expired (ds : DevServerObject) (now : Int) : Bool :=
  match ds.creationTimestamp with
  | none => false
  | some t =>
      match ds.timeToLive with
      | none => false
      | some ttl =>
          if ttl = "" then false
          else
            match parse_duration ttl with
            | none => false
            | some d => decide (now > t + d)

/-- Embedding of check_and_expire_devservers: the servers a single pass
deletes are exactly the listed servers is_expired accepts. -/
def check_and_expire_devservers (items : List DevServerObject) (now : Int) : List DevServerObject :=
  items.filter (fun ds => is_expired ds now)

/-! ## src/src/devservers/operator/config.py -/

/-- A Python scalar as it reaches OperatorConfig: an environment value is
always a string, a YAML value may be a string, an int or a bool. -/
inductive PyVal
  | s (v : String)
  | i (v : Int)
  | b (v : Bool)
deriving DecidableEq, Repr

/-- os.environ.get(env_key, self._config.get(yaml_key, default)): the
environment variable when set, else the config-file value, else the
default. -/
def resolveRaw (envVal : Option String) (fileVal : Option PyVal) (dflt : PyVal) : PyVal :=
  match envVal with
  | some v => .s v
  | none => fileVal.getD dflt

/-- Python str() on the scalars that reach get_bool. -/
def pyStr : PyVal → String
  | .s v => v
  | .i n => toString n
  | .b b => if b then "True" else "False"

/-- int() on such a scalar; none models the ValueError on an unparsable
string. -/
def pyIntCast : PyVal → Option Int
  | .s v => (v.toList.isEmpty : Bool) |> fun e => if e then none else
      (if v.toList.all isDigitChar then some (digitsToNat v.toList : Int) else none)
  | .i n => some n
  | .b b => some (if b then 1 else 0)

/-- get_bool of config.py: str(value).lower() in ("true", "1", "t"). -/
def pyBoolCast (v : PyVal) : Bool :=
  let l := String.mk ((pyStr v).data.map pyLower)
  l = "true" || l = "1" || l = "t"

/-- The resolved operator configuration (the schema of config.py). -/
structure OperatorConfig where
  expirationInterval : Option Int
  flavorReconciliationInterval : Option Int
  workerLimit : Option Int
  postingEnabled : Bool
  defaultDevserverImage : PyVal
  staticDependenciesImage : PyVal
deriving DecidableEq, Repr

/-- Embedding of OperatorConfig.__init__: each key resolved through
_get_value (environment first, then the config file, then the default)
and cast as config.py casts it. -/
def mkOperatorConfig (env : String → Option String) (file : String → Option PyVal) :
    OperatorConfig :=
  { expirationInterval :=
      pyIntCast (resolveRaw (env "DEVSERVER_EXPIRATION_INTERVAL") (file "expirationInterval") (.i 60))
    flavorReconciliationInterval :=
      pyIntCast (resolveRaw (env "DEVSERVER_FLAVOR_RECONCILIATION_INTERVAL")
        (file "flavorReconciliationInterval") (.i 60))
    workerLimit :=
      pyIntCast (resolveRaw (env "DEVSERVER_WORKER_LIMIT") (file "workerLimit") (.i 1))
    postingEnabled :=
      pyBoolCast (resolveRaw (env "DEVSERVER_POSTING_ENABLED") (file "postingEnabled") (.b false))
    defaultDevserverImage :=
      resolveRaw (env "DEVSERVER_DEFAULT_DEVSERVER_IMAGE") (file "defaultDevserverImage")
        (.s "seemethere/devserver-base:latest")
    staticDependenciesImage :=
      resolveRaw (env "DEVSERVER_STATIC_DEPENDENCIES_IMAGE") (file "staticDependenciesImage")
        (.s "seemethere/devserver-static-dependencies:latest") }

/-- Modelled from the spec: the defaultPersistentHomeSize configuration
key (default "10Gi", env override DEVSERVER_DEFAULT_PERSISTENT_HOME_SIZE).
The spec's configuration table lists it and operator.py reads
operator_config.default_persistent_home_size, but the configuration
schema carrying it is not among the staged source files (the spec notes
the source holds two configuration schemas). -/
def defaultPersistentHomeSize (env : String → Option String) (file : String → Option PyVal) :
    PyVal :=
  resolveRaw (env "DEVSERVER_DEFAULT_PERSISTENT_HOME_SIZE") (file "defaultPersistentHomeSize")
    (.s "10Gi")

/-! ## src/src/devservers/operator/devserver/handler.py -/

/-- The externally visible steps of create_or_update_devserver after the
validations: the flavor lookup, the host-key Secret provisioning and the
child-object writes done by the reconciler. -/
inductive HandlerAction
  | flavorLookup
  | hostKeysEnsure
  | childWrite (kind : String)
deriving DecidableEq, Repr

inductive HandlerErr
  | permanent (msg : String)
  | typeError (msg : String)
deriving DecidableEq, Repr

instance [DecidableEq ε] [DecidableEq α] : DecidableEq (Except ε α) := fun x y =>
  match x, y with
  | .ok a, .ok b => decidable_of_iff (a = b) (by simp)
  | .error a, .error b => decidable_of_iff (a = b) (by simp)
  | .ok _, .error _ => isFalse (fun h => Except.noConfusion h)
  | .error _, .ok _ => isFalse (fun h => Except.noConfusion h)

structure HandlerOutcome where
  actions : List HandlerAction
  result : Except HandlerErr String
deriving DecidableEq, Repr

/-- Python call binding for a function whose parameters all lack defaults:
the first npos parameters are bound positionally; every keyword argument
must name a parameter that is not already bound positionally, and every
parameter must end up bound. -/
def pyCallBindsOk (params : List String) (npos : Nat) (kwargs : List String) : Bool :=
  kwargs.all (fun k => params.contains k && !((params.take npos).contains k)) &&
    params.all (fun p => (params.take npos).contains p || kwargs.contains p)

/-- The parameters of reconcile_devserver (reconciler.py lines 199-206),
none of which has a default. -/
def reconcile_devserver_params : List String :=
  ["name", "namespace", "spec", "flavor", "logger", "default_persistent_home_size"]

/-- The call in handler.py lines 78-86: five positional arguments and
these keyword arguments. -/
def handler_reconcile_kwargs : List String :=
  ["default_devserver_image", "static_dependencies_image"]

def handler_reconcile_npos : Nat := 5

/-- The status message reconcile_devserver returns on success
(reconciler.py line 233). -/
def reconcile_status_message (name : String) : String :=
  "StatefulSet '" ++ name ++ "' reconciled successfully."

/-- Embedding of create_or_update_devserver: TTL validation, volume
validation, flavor lookup (permanent error when the flavor is missing),
host-key provisioning, then the reconcile call.  The call's keyword
arguments are checked against reconcile_devserver's parameters with
Python's binding rule; when they do not bind, Python raises a TypeError
at the call, before any child write. -/
def create_or_update_devserver (name : String) (ttl : Option String)
    (volumes : Option (List PyVolumeEntry)) (flavorExists : Bool) : HandlerOutcome :=
  match validate_and_normalize_ttl ttl with
  | .error e => ⟨[], .error (.permanent e)⟩
  | .ok _ =>
      match validate_volumes volumes with
      | .error e => ⟨[], .error (.permanent e)⟩
      | .ok _ =>
          if !flavorExists then
            ⟨[.flavorLookup], .error (.permanent "Flavor not found.")⟩
          else if pyCallBindsOk reconcile_devserver_params handler_reconcile_npos
              handler_reconcile_kwargs then
            ⟨[.flavorLookup, .hostKeysEnsure, .childWrite "ConfigMap", .childWrite "Service",
              .childWrite "StatefulSet"],
             .ok (reconcile_status_message name)⟩
          else
            ⟨[.flavorLookup, .hostKeysEnsure],
             .error (.typeError "reconcile_devserver got an unexpected keyword argument")⟩

/-- Modelled from the spec: the kopf runtime patches status.phase to
Failed on a PermanentError and to Running on success (with the handler's
message); any other exception is retried and leaves no status patch.
kopf is a third-party framework, not part of this repository. -/
def status_patch (r : HandlerOutcome) : Option (String × String) :=
  match r.result with
  | .ok msg => some ("Running", msg)
  | .error (.permanent m) => some ("Failed", m)
  | .error (.typeError _) => none

/-! ## src/src/devservers/crds/base.py : wait_for_status

The generator's environment: refreshAt n is the object's status as the
n-th refresh() call reads it, watchAt w the events the w-th opened watch
stream delivers before closing, elapsedAt k the elapsed whole seconds at
the k-th evaluation of the while condition (time.time() is outside the
embedding). -/

structure WatchEvent where
  objStatus : Option (List (String × String))
deriving DecidableEq, Repr

structure WaitEnv where
  refreshAt : Nat → List (String × String)
  watchAt : Nat → List WatchEvent
  elapsedAt : Nat → Nat

structure WaitOutcome where
  success : Bool
  yielded : List WatchEvent
  watchesOpened : Nat
deriving DecidableEq, Repr

/-- The for-loop over one watch stream: yield each event; when the
event's object carries a status that subset-matches, refresh and confirm
against the authoritative state; on confirmation return early.  Returns
the yielded events, the next refresh index and whether the generator
returned. -/
def processWatch (target : List (String × String)) (env : WaitEnv) :
    List WatchEvent → Nat → List WatchEvent → List WatchEvent × Nat × Bool
  | [], r, acc => (acc, r, false)
  | e :: rest, r, acc =>
      let acc2 := acc ++ [e]
      match e.objStatus with
      | some st =>
          if is_status_subset target st then
            if is_status_subset target (env.refreshAt r) then (acc2, r + 1, true)
            else processWatch target env rest (r + 1) acc2
          else processWatch target env rest r acc2
      | none => processWatch target env rest r acc2

/-- The while loop of wait_for_status; fuel bounds the finitely many
iterations a bounded timeout allows.  On loop exit a last refresh-and-check
decides between success and TimeoutError (success = false). -/
def wait_for_status_loop (env : WaitEnv) (target : List (String × String)) (timeout : Nat) :
    Nat → Nat → Nat → List WatchEvent → Nat → WaitOutcome
  | _, w, r, acc, 0 => ⟨is_status_subset target (env.refreshAt r), acc, w⟩
  | k, w, r, acc, fuel + 1 =>
      if env.elapsedAt k < timeout then
        if timeout - env.elapsedAt k = 0 then
          ⟨is_status_subset target (env.refreshAt r), acc, w⟩
        else
          let events := env.watchAt w
          let step := processWatch target env events r []
          if step.2.2 then ⟨true, acc ++ step.1, w + 1⟩
          else if events.isEmpty then
            if is_status_subset target (env.refreshAt step.2.1) then
              ⟨true, acc ++ step.1, w + 1⟩
            else wait_for_status_loop env target timeout (k + 1) (w + 1) (step.2.1 + 1)
              (acc ++ step.1) fuel
          else wait_for_status_loop env target timeout (k + 1) (w + 1) step.2.1
            (acc ++ step.1) fuel
      else ⟨is_status_subset target (env.refreshAt r), acc, w⟩

/-- Embedding of wait_for_status: refresh once at entry and return at
once when the target is already a subset of the live status, otherwise
enter the watch loop. -/
def wait_for_status (env : WaitEnv) (target : List (String × String)) (timeout fuel : Nat) :
    WaitOutcome :=
  if is_status_subset target (env.refreshAt 0) then ⟨true, [], 0⟩
  else wait_for_status_loop env target timeout 0 0 1 [] fuel

/-! ## Helper lemmas -/

theorem dlookup_nil (k : String) : dlookup k ([] : List (String × α)) = none := rfl

theorem dlookup_dictInsert (d : List (String × α)) (k k2 : String) (v : α) :
    dlookup k (dictInsert d k2 v) = if k = k2 then some v else dlookup k d := by
  induction d with
  | nil => simp [dictInsert, dlookup, eq_comm]
  | cons p rest ih =>
      by_cases hp : p.1 = k2
      · simp only [dictInsert, hp, if_pos]
        by_cases hk : k = k2
        · simp [dlookup, hk]
        · have : ¬ (k2 = k) := fun h => hk h.symm
          simp only [dlookup, this, if_neg, hk, not_false_iff]
          rw [hp, if_neg this]
      · simp only [dictInsert, hp, if_neg, not_false_iff]
        by_cases hpk : p.1 = k
        · have hk2 : ¬ (k = k2) := fun h => hp (hpk.trans h)
          simp [dlookup, hpk, hk2]
        · simp [dlookup, hpk, ih]

theorem find?_append (p : α → Bool) (l1 l2 : List α) :
    (l1 ++ l2).find? p = ((l1.find? p).or (l2.find? p)) := by
  induction l1 with
  | nil => simp [Option.or]
  | cons a rest ih =>
      by_cases h : p a
      · simp [List.find?, h, Option.or]
      · simp only [List.cons_append, List.find?, h]
        exact ih

/-- The last volume of a list declaring a given mount path, the entry
that wins the dict overlay. -/
def lastVolumeAt (l : List UserVolume) (p : String) : Option UserVolume :=
  l.reverse.find? (fun v => v.mountPath == p)

theorem lastVolumeAt_cons (v : UserVolume) (l : List UserVolume) (p : String) :
    lastVolumeAt (v :: l) p =
      (lastVolumeAt l p).or (if v.mountPath = p then some v else none) := by
  unfold lastVolumeAt
  rw [List.reverse_cons, find?_append]
  by_cases h : v.mountPath = p
  · simp [List.find?, h]
  · have hb : (v.mountPath == p) = false := beq_eq_false_iff_ne.mpr h
    simp [List.find?, h, hb, Option.or_none]

theorem dlookup_foldl_insert (l : List UserVolume) (d : List (String × UserVolume)) (p : String) :
    dlookup p (l.foldl (fun d v => dictInsert d v.mountPath v) d) =
      (lastVolumeAt l p).or (dlookup p d) := by
  induction l generalizing d with
  | nil => simp [lastVolumeAt, Option.or]
  | cons v rest ih =>
      rw [List.foldl_cons, ih, dlookup_dictInsert, lastVolumeAt_cons]
      rcases hl : lastVolumeAt rest p with _ | w
      · simp only [Option.or]
        by_cases h : v.mountPath = p
        · simp [h, Option.or]
        · have : ¬ (p = v.mountPath) := fun hh => h hh.symm
          simp [h, this, Option.or]
      · simp [Option.or]

/-- The merged dict looks up, at each mount path, the later spec entry
if any, else the later flavor entry. -/
theorem merge_volumes_lookup (flavorVolumes userVolumes : List UserVolume) (p : String) :
    dlookup p (merge_volumes flavorVolumes userVolumes) =
      (lastVolumeAt userVolumes p).or (lastVolumeAt flavorVolumes p) := by
  unfold merge_volumes
  rw [dlookup_foldl_insert, dlookup_foldl_insert]
  simp [dlookup, Option.or_none]

/-! ## Claim C6 -/

/-- C6 counterexample: on the pair (empty subset, empty superset) the code
returns False although every (key, value) pair of the empty subset is
vacuously present in the superset, so the claimed iff fails there. -/
theorem is_status_subset_empty_empty :
    is_status_subset ([] : List (String × String)) [] = false ∧
      ∀ kv ∈ ([] : List (String × String)), dlookup kv.1 ([] : List (String × String)) = some kv.2 := by
  exact ⟨rfl, by intro kv hkv; cases hkv⟩

/-- C6 amended: the subset check succeeds iff the superset is non-empty
and every (key, value) pair of the subset is present in the superset with
an equal value; so an empty subset matches every non-empty superset,
extra superset keys never matter, and the empty superset matches nothing,
not even the empty subset. -/
theorem is_status_subset_iff [DecidableEq α] (subset superset : List (String × α)) :
    is_status_subset subset superset = true ↔
      superset ≠ [] ∧ ∀ kv ∈ subset, dlookup kv.1 superset = some kv.2 := by
  unfold is_status_subset
  rcases superset with _ | ⟨q, rest⟩
  · simp
  · simp [List.all_eq_true]

/-! ## Claim C4 -/

/-- C4: TTL validation raises a permanent error exactly when the string is
present, non-empty, and fails to parse or parses to a non-positive
duration or to more than 7 days (7 * 86400 seconds); everything else,
including the absent and the empty TTL, is accepted. -/
theorem validate_ttl_error_iff (ttl : Option String) :
    (∃ e, validate_and_normalize_ttl ttl = .error e) ↔
      (∃ s, ttl = some s ∧ s ≠ "" ∧
        (parse_duration s = none ∨
          ∃ d, parse_duration s = some d ∧ (d ≤ 0 ∨ d > 7 * 86400))) := by
  rcases ttl with _ | s
  · simp [validate_and_normalize_ttl]
  · unfold validate_and_normalize_ttl
    by_cases hs : s = ""
    · simp [hs]
    · simp only [hs, if_neg, not_false_iff]
      rcases hp : parse_duration s with _ | d
      · constructor
        · intro _
          exact ⟨s, rfl, hs, Or.inl hp⟩
        · intro _
          exact ⟨_, rfl⟩
      · by_cases h0 : d ≤ 0
        · simp only [h0, if_pos]
          constructor
          · intro _
            exact ⟨s, rfl, hs, Or.inr ⟨d, hp, Or.inl h0⟩⟩
          · intro _
            exact ⟨_, rfl⟩
        · simp only [h0, if_neg, not_false_iff]
          by_cases h7 : d > 7 * 86400
          · simp only [h7, if_pos]
            constructor
            · intro _
              exact ⟨s, rfl, hs, Or.inr ⟨d, hp, Or.inr h7⟩⟩
            · intro _
              exact ⟨_, rfl⟩
          · simp only [h7, if_neg, not_false_iff]
            constructor
            · rintro ⟨e, he⟩
              cases he
            · rintro ⟨s2, hs2, -, hbad⟩
              cases hs2
              rcases hbad with hnone | ⟨d2, hd2, hrange⟩
              · rw [hp] at hnone
                cases hnone
              · rw [hp] at hd2
                cases hd2
                rcases hrange with h | h
                · exact absurd h h0
                · exact absurd h h7

/-! ## Claims C3 and C10: the expiration controller -/

/-- is_expired, characterised: true exactly when the creation timestamp is
present, the TTL is present, non-empty and parses, and now is strictly
past creation + TTL. -/
theorem is_expired_iff (ds : DevServerObject) (now : Int) :
    is_expired ds now = true ↔
      ∃ t ttl d, ds.creationTimestamp = some t ∧ ds.timeToLive = some ttl ∧
        ttl ≠ "" ∧ parse_duration ttl = some d ∧ now > t + d := by
  unfold is_expired
  rcases hc : ds.creationTimestamp with _ | t
  · simp
  · rcases ht : ds.timeToLive with _ | ttl
    · simp
    · by_cases he : ttl = ""
      · simp [he]
      · simp only [he, if_neg, not_false_iff]
        rcases hp : parse_duration ttl with _ | d
        · simp [hp]
        · simp only [decide_eq_true_eq]
          constructor
          · intro h
            exact ⟨t, ttl, d, rfl, rfl, he, hp, h⟩
          · rintro ⟨t2, ttl2, d2, h1, h2, -, h4, h5⟩
            cases h1
            cases h2
            rw [hp] at h4
            cases h4
            exact h5

/-- C3: one pass of the expiration controller deletes a DevServer only
when its TTL is set (and parses) and the current time is strictly past
creationTimestamp + TTL; a DevServer without TTL is never deleted, and
none is deleted at or before creationTimestamp + TTL. -/
theorem expiration_deletes_only_expired (items : List DevServerObject) (now : Int)
    (ds : DevServerObject) :
    (ds ∈ check_and_expire_devservers items now →
      ∃ t ttl d, ds.creationTimestamp = some t ∧ ds.timeToLive = some ttl ∧
        ttl ≠ "" ∧ parse_duration ttl = some d ∧ now > t + d) ∧
    (ds.timeToLive = none → ds ∉ check_and_expire_devservers items now) ∧
    (∀ t ttl d, ds.creationTimestamp = some t → ds.timeToLive = some ttl →
      parse_duration ttl = some d → now ≤ t + d →
      ds ∉ check_and_expire_devservers items now) := by
  refine ⟨?_, ?_, ?_⟩
  · intro h
    have hx := (List.mem_filter.mp h).2
    exact (is_expired_iff ds now).mp hx
  · intro hnone h
    have hx := (List.mem_filter.mp h).2
    obtain ⟨t, ttl, d, -, h2, -, -, -⟩ := (is_expired_iff ds now).mp hx
    rw [hnone] at h2
    cases h2
  · intro t ttl d hc ht hp hle h
    have hx := (List.mem_filter.mp h).2
    obtain ⟨t2, ttl2, d2, h1, h2, -, h4, h5⟩ := (is_expired_iff ds now).mp hx
    rw [hc] at h1
    cases h1
    rw [ht] at h2
    cases h2
    rw [hp] at h4
    cases h4
    omega

/-- C10: a listed DevServer whose metadata lacks a creationTimestamp or
whose TTL string does not parse as a duration is treated as not expired
and is never deleted by the expiration pass. -/
theorem malformed_devserver_never_expired (items : List DevServerObject) (now : Int)
    (ds : DevServerObject) :
    (ds.creationTimestamp = none ∨
      ∃ ttl, ds.timeToLive = some ttl ∧ parse_duration ttl = none) →
    is_expired ds now = false ∧ ds ∉ check_and_expire_devservers items now := by
  intro hbad
  have hfalse : is_expired ds now = false := by
    rcases hbad with hc | ⟨ttl, ht, hp⟩
    · unfold is_expired
      rw [hc]
    · unfold is_expired
      rcases hcc : ds.creationTimestamp with _ | t
      · rfl
      · rw [ht]
        by_cases he : ttl = ""
        · simp [he]
        · simp [he, hp]
  refine ⟨hfalse, ?_⟩
  intro h
  have hx := (List.mem_filter.mp h).2
  rw [hfalse] at hx
  cases hx

/-- C10 witness: a concrete malformed DevServer (no creationTimestamp) is
not expired and not deleted. -/
theorem malformed_devserver_never_expired_witness :
    is_expired ⟨"d1", "ns", none, some "1h"⟩ 1000000 = false ∧
      (⟨"d1", "ns", none, some "1h"⟩ : DevServerObject) ∉
        check_and_expire_devservers [⟨"d1", "ns", none, some "1h"⟩] 1000000 :=
  malformed_devserver_never_expired [⟨"d1", "ns", none, some "1h"⟩] 1000000
    ⟨"d1", "ns", none, some "1h"⟩ (Or.inl rfl)

/-! ## Claim C7 -/

/-- C7: when the status read by the initial refresh already subset-matches
the target, wait_for_status returns successfully at once: no watch is
opened and no event is yielded. -/
theorem wait_for_status_immediate (env : WaitEnv) (target : List (String × String))
    (timeout fuel : Nat) :
    is_status_subset target (env.refreshAt 0) = true →
    wait_for_status env target timeout fuel = ⟨true, [], 0⟩ := by
  intro h
  unfold wait_for_status
  rw [h]
  rfl

/-- C7 witness: a concrete environment whose first refresh already
matches. -/
theorem wait_for_status_immediate_witness :
    is_status_subset [("phase", "Running")]
        ((WaitEnv.mk (fun _ => [("phase", "Running"), ("message", "ok")]) (fun _ => [⟨some [("phase", "Running")]⟩]) (fun k => k)).refreshAt 0) = true ∧
      wait_for_status
        (WaitEnv.mk (fun _ => [("phase", "Running"), ("message", "ok")]) (fun _ => [⟨some [("phase", "Running")]⟩]) (fun k => k))
        [("phase", "Running")] 30 5 = ⟨true, [], 0⟩ :=
  ⟨by decide,
   wait_for_status_immediate
     (WaitEnv.mk (fun _ => [("phase", "Running"), ("message", "ok")]) (fun _ => [⟨some [("phase", "Running")]⟩]) (fun k => k))
     [("phase", "Running")] 30 5 (by decide)⟩

/-! ## Claim C9 -/

/-- C9: each operator configuration key resolves to the environment
variable DEVSERVER_<UPPER_SNAKE_KEY> when set, else to the config-file
key, else to the documented default (expirationInterval 60,
flavorReconciliationInterval 60, workerLimit 1, postingEnabled false);
and the defaultPersistentHomeSize key defaults to "10Gi" under the same
resolution order. -/
theorem operator_config_resolution (env : String → Option String)
    (file : String → Option PyVal) :
    ((env "DEVSERVER_EXPIRATION_INTERVAL" = none → file "expirationInterval" = none →
        (mkOperatorConfig env file).expirationInterval = some 60) ∧
      (∀ s, env "DEVSERVER_EXPIRATION_INTERVAL" = some s →
        (mkOperatorConfig env file).expirationInterval = pyIntCast (.s s)) ∧
      (∀ v, env "DEVSERVER_EXPIRATION_INTERVAL" = none → file "expirationInterval" = some v →
        (mkOperatorConfig env file).expirationInterval = pyIntCast v)) ∧
    ((env "DEVSERVER_FLAVOR_RECONCILIATION_INTERVAL" = none →
        file "flavorReconciliationInterval" = none →
        (mkOperatorConfig env file).flavorReconciliationInterval = some 60) ∧
      (∀ s, env "DEVSERVER_FLAVOR_RECONCILIATION_INTERVAL" = some s →
        (mkOperatorConfig env file).flavorReconciliationInterval = pyIntCast (.s s)) ∧
      (∀ v, env "DEVSERVER_FLAVOR_RECONCILIATION_INTERVAL" = none →
        file "flavorReconciliationInterval" = some v →
        (mkOperatorConfig env file).flavorReconciliationInterval = pyIntCast v)) ∧
    ((env "DEVSERVER_WORKER_LIMIT" = none → file "workerLimit" = none →
        (mkOperatorConfig env file).workerLimit = some 1) ∧
      (∀ s, env "DEVSERVER_WORKER_LIMIT" = some s →
        (mkOperatorConfig env file).workerLimit = pyIntCast (.s s)) ∧
      (∀ v, env "DEVSERVER_WORKER_LIMIT" = none → file "workerLimit" = some v →
        (mkOperatorConfig env file).workerLimit = pyIntCast v)) ∧
    ((env "DEVSERVER_POSTING_ENABLED" = none → file "postingEnabled" = none →
        (mkOperatorConfig env file).postingEnabled = false) ∧
      (∀ s, env "DEVSERVER_POSTING_ENABLED" = some s →
        (mkOperatorConfig env file).postingEnabled = pyBoolCast (.s s)) ∧
      (∀ v, env "DEVSERVER_POSTING_ENABLED" = none → file "postingEnabled" = some v →
        (mkOperatorConfig env file).postingEnabled = pyBoolCast v)) ∧
    ((env "DEVSERVER_DEFAULT_PERSISTENT_HOME_SIZE" = none →
        file "defaultPersistentHomeSize" = none →
        defaultPersistentHomeSize env file = .s "10Gi") ∧
      (∀ s, env "DEVSERVER_DEFAULT_PERSISTENT_HOME_SIZE" = some s →
        defaultPersistentHomeSize env file = .s s) ∧
      (∀ v, env "DEVSERVER_DEFAULT_PERSISTENT_HOME_SIZE" = none →
        file "defaultPersistentHomeSize" = some v →
        defaultPersistentHomeSize env file = v)) := by
  refine ⟨⟨?_, ?_, ?_⟩, ⟨?_, ?_, ?_⟩, ⟨?_, ?_, ?_⟩, ⟨?_, ?_, ?_⟩, ⟨?_, ?_, ?_⟩⟩
  all_goals intros
  all_goals simp_all [mkOperatorConfig, defaultPersistentHomeSize, resolveRaw]
  all_goals rfl

/-- C9 witness: with no environment overrides and an absent config file
every key resolves to its documented default, and a set environment
variable wins. -/
theorem operator_config_resolution_witness :
    (mkOperatorConfig (fun _ => none) (fun _ => none)).expirationInterval = some 60 ∧
      (mkOperatorConfig (fun _ => none) (fun _ => none)).flavorReconciliationInterval = some 60 ∧
      (mkOperatorConfig (fun _ => none) (fun _ => none)).workerLimit = some 1 ∧
      (mkOperatorConfig (fun _ => none) (fun _ => none)).postingEnabled = false ∧
      defaultPersistentHomeSize (fun _ => none) (fun _ => none) = .s "10Gi" ∧
      (mkOperatorConfig (fun k => if k = "DEVSERVER_WORKER_LIMIT" then some "7" else none)
          (fun _ => none)).workerLimit = pyIntCast (.s "7") :=
  ⟨((operator_config_resolution (fun _ => none) (fun _ => none)).1).1 rfl rfl,
   ((operator_config_resolution (fun _ => none) (fun _ => none)).2.1).1 rfl rfl,
   ((operator_config_resolution (fun _ => none) (fun _ => none)).2.2.1).1 rfl rfl,
   ((operator_config_resolution (fun _ => none) (fun _ => none)).2.2.2.1).1 rfl rfl,
   ((operator_config_resolution (fun _ => none) (fun _ => none)).2.2.2.2).1 rfl rfl,
   ((operator_config_resolution (fun k => if k = "DEVSERVER_WORKER_LIMIT" then some "7" else none)
       (fun _ => none)).2.2.1).2.1 "7" rfl⟩

/-! ## Claim C2 -/

/-- C2: the create/update handler cannot complete successfully on a valid
DevServer.  The keyword arguments it passes to reconcile_devserver do not
bind that function's parameters (default_persistent_home_size is missing
and the two image keywords are unknown), so a valid DevServer whose
flavor exists reaches a TypeError after the host-key step and no Running
status is patched. -/
theorem handler_reconcile_call_type_error :
    pyCallBindsOk reconcile_devserver_params handler_reconcile_npos
        handler_reconcile_kwargs = false ∧
      create_or_update_devserver "dev" (some "1h")
          (some [.dict (some "data-pvc") (some "/data") none]) true =
        ⟨[.flavorLookup, .hostKeysEnsure],
         .error (.typeError "reconcile_devserver got an unexpected keyword argument")⟩ ∧
      status_patch (create_or_update_devserver "dev" (some "1h")
          (some [.dict (some "data-pvc") (some "/data") none]) true) = none := by
  refine ⟨by decide, by decide, by decide⟩

/-! ## Claim C5 -/

/-- An entry whose mountPath is absent or empty (Python falsy). -/
def entryFalsyPath : PyVolumeEntry → Bool
  | .nonDict => false
  | .dict _ none _ => true
  | .dict _ (some p) _ => p == ""

/-- The truthy mount paths declared by a volumes list, in order. -/
def truthyPaths : List PyVolumeEntry → List String
  | [] => []
  | .nonDict :: rest => truthyPaths rest
  | .dict _ none _ :: rest => truthyPaths rest
  | .dict _ (some p) _ :: rest =>
      if p = "" then truthyPaths rest else p :: truthyPaths rest

/-- A walk that accepts leaves only well-formed entries behind: no
non-dict entry, no falsy mountPath, no duplicate among the declared
mount paths, and none of them already seen. -/
theorem validate_volumes_walk_ok (l : List PyVolumeEntry) (seen : List String) :
    validate_volumes_walk l seen = .ok () →
      (∀ e ∈ l, e ≠ .nonDict ∧ entryFalsyPath e = false) ∧
      (truthyPaths l).Nodup ∧ ∀ p ∈ truthyPaths l, p ∉ seen := by
  induction l generalizing seen with
  | nil => intro _; exact ⟨by simp, by simp [truthyPaths], by simp [truthyPaths]⟩
  | cons e rest ih =>
      intro hw
      rcases e with _ | ⟨cn, mp, ro⟩
      · exact absurd hw (by simp [validate_volumes_walk])
      · rcases mp with _ | p
        · exact absurd hw (by simp [validate_volumes_walk])
        · simp only [validate_volumes_walk] at hw
          by_cases hp1 : p = ""
          · rw [if_pos hp1] at hw
            cases hw
          · rw [if_neg hp1] at hw
            by_cases hp2 : p ∈ seen
            · rw [if_pos hp2] at hw
              cases hw
            · rw [if_neg hp2] at hw
              obtain ⟨hclean, hnodup, hfresh⟩ := ih (seen ++ [p]) hw
              refine ⟨?_, ?_, ?_⟩
              · intro e' he'
                rcases List.mem_cons.mp he' with he' | he'
                · subst he'
                  exact ⟨fun h => PyVolumeEntry.noConfusion h,
                    by simp [entryFalsyPath, hp1]⟩
                · exact hclean e' he'
              · simp only [truthyPaths, if_neg hp1, List.nodup_cons]
                refine ⟨?_, hnodup⟩
                intro hmem
                have := hfresh p hmem
                simp at this
              · intro q hq
                simp only [truthyPaths, if_neg hp1, List.mem_cons] at hq
                rcases hq with hq | hq
                · subst hq
                  exact hp2
                · intro hqs
                  exact hfresh q hq (List.mem_append.mpr (Or.inl hqs))

/-- C5: a volumes list holding a non-dict entry, an entry without a
truthy mountPath, or two entries sharing a mountPath makes the handler
fail with a permanent error before the flavor lookup, the host-key
provisioning and any child write: the action trace is empty, and the
resulting status is Failed. -/
theorem invalid_volumes_fail_before_side_effects (name : String) (ttl : Option String)
    (l : List PyVolumeEntry) (flavorExists : Bool) :
    ((∃ e ∈ l, e = PyVolumeEntry.nonDict) ∨ (∃ e ∈ l, entryFalsyPath e = true) ∨
      ¬ (truthyPaths l).Nodup) →
    (create_or_update_devserver name ttl (some l) flavorExists).actions = [] ∧
    (∃ m, (create_or_update_devserver name ttl (some l) flavorExists).result =
      .error (.permanent m)) ∧
    (∃ m, status_patch (create_or_update_devserver name ttl (some l) flavorExists) =
      some ("Failed", m)) := by
  intro hbad
  have hvv : ∃ m, validate_volumes (some l) = .error m := by
    rcases h : validate_volumes (some l) with m | u
    · exact ⟨m, rfl⟩
    · exfalso
      rcases l with _ | ⟨e, rest⟩
      · rcases hbad with ⟨e, he, -⟩ | ⟨e, he, -⟩ | hnd
        · cases he
        · cases he
        · exact hnd (by simp [truthyPaths])
      · have hw : validate_volumes_walk (e :: rest) [] = .ok () := by
          have : validate_volumes (some (e :: rest)) = validate_volumes_walk (e :: rest) [] := rfl
          rw [this] at h
          rw [h]
        obtain ⟨hclean, hnodup, -⟩ := validate_volumes_walk_ok (e :: rest) [] hw
        rcases hbad with ⟨e', he', hnd⟩ | ⟨e', he', hf⟩ | hnd
        · exact (hclean e' he').1 hnd
        · rw [(hclean e' he').2] at hf
          cases hf
        · exact hnd hnodup
  obtain ⟨m, hm⟩ := hvv
  rcases httl : validate_and_normalize_ttl ttl with e | u
  · refine ⟨?_, ⟨e, ?_⟩, ⟨e, ?_⟩⟩ <;>
      simp [create_or_update_devserver, status_patch, httl]
  · refine ⟨?_, ⟨m, ?_⟩, ⟨m, ?_⟩⟩ <;>
      simp [create_or_update_devserver, status_patch, httl, hm]

/-- C5 witness: two entries sharing the mount path /x are rejected with
an empty action trace and a Failed status. -/
theorem invalid_volumes_fail_before_side_effects_witness :
    (create_or_update_devserver "dev" none
        (some [.dict (some "a") (some "/x") none, .dict (some "b") (some "/x") none])
        true).actions = [] ∧
      (∃ m, (create_or_update_devserver "dev" none
        (some [.dict (some "a") (some "/x") none, .dict (some "b") (some "/x") none])
        true).result = .error (.permanent m)) ∧
      (∃ m, status_patch (create_or_update_devserver "dev" none
        (some [.dict (some "a") (some "/x") none, .dict (some "b") (some "/x") none])
        true) = some ("Failed", m)) :=
  invalid_volumes_fail_before_side_effects "dev" none
    [.dict (some "a") (some "/x") none, .dict (some "b") (some "/x") none] true
    (Or.inr (Or.inr (by decide)))

/-! ## Character lemmas for the sanitiser and SHA-1 rendering -/

theorem mem_sanitizeChars (x : Char) (s : List Char) :
    x ∈ sanitizeChars s → allowedChar x = true := by
  intro hx
  obtain ⟨c, -, hc⟩ := List.mem_map.mp hx
  rw [← hc]
  show allowedChar (if allowedChar (pyLower c) = true then pyLower c else '-') = true
  by_cases h : allowedChar (pyLower c) = true
  · rw [if_pos h]
    exact h
  · rw [if_neg h]
    decide

theorem mem_collapseHyphens (x : Char) (l : List Char) :
    x ∈ collapseHyphens l → x ∈ l := by
  induction l with
  | nil => intro h; cases h
  | cons c rest ih =>
      rcases rest with _ | ⟨d, rest2⟩
      · intro h; exact h
      · intro h
        unfold collapseHyphens at h
        by_cases hcd : c = '-' ∧ d = '-'
        · rw [if_pos hcd] at h
          exact List.mem_cons_of_mem c (ih h)
        · rw [if_neg hcd] at h
          rcases List.mem_cons.mp h with h | h
          · exact h ▸ List.mem_cons_self c _
          · exact List.mem_cons_of_mem c (ih h)

theorem mem_lstripHyphens (x : Char) (l : List Char) :
    x ∈ lstripHyphens l → x ∈ l := by
  induction l with
  | nil => intro h; cases h
  | cons c rest ih =>
      unfold lstripHyphens
      by_cases hc : c = '-'
      · rw [if_pos hc]
        intro h
        exact List.mem_cons_of_mem c (ih h)
      · rw [if_neg hc]
        intro h
        exact h

theorem mem_rstripHyphens (x : Char) (l : List Char) :
    x ∈ rstripHyphens l → x ∈ l := by
  induction l with
  | nil => intro h; cases h
  | cons c rest ih =>
      unfold rstripHyphens
      rcases hr : rstripHyphens rest with _ | ⟨y, ys⟩
      · by_cases hc : c = '-'
        · rw [if_pos hc]
          intro h
          cases h
        · rw [if_neg hc]
          intro h
          rcases List.mem_cons.mp h with h | h
          · exact h ▸ List.mem_cons_self c _
          · cases h
      · intro h
        rcases List.mem_cons.mp h with h | h
        · exact h ▸ List.mem_cons_self c _
        · exact List.mem_cons_of_mem c (ih (hr ▸ h))

theorem length_rstripHyphens_le (l : List Char) :
    (rstripHyphens l).length ≤ l.length := by
  induction l with
  | nil => exact Nat.le_refl 0
  | cons c rest ih =>
      unfold rstripHyphens
      rcases hr : rstripHyphens rest with _ | ⟨y, ys⟩
      · by_cases hc : c = '-'
        · simp [hc]
        · simp [hc]
      · rw [hr] at ih
        simp only [List.length_cons] at ih ⊢
        omega

theorem rstripHyphens_cons_ne (c : Char) (t : List Char) (hc : c ≠ '-') :
    ∃ t2, rstripHyphens (c :: t) = c :: t2 := by
  unfold rstripHyphens
  rcases rstripHyphens t with _ | ⟨y, ys⟩
  · exact ⟨[], by simp [hc]⟩
  · exact ⟨y :: ys, rfl⟩

theorem lstripHyphens_cons_ne (c : Char) (t : List Char) (hc : c ≠ '-') :
    lstripHyphens (c :: t) = c :: t := by
  unfold lstripHyphens
  rw [if_neg hc]

theorem collapseHyphens_cons_ne (c : Char) (l : List Char) (hc : c ≠ '-') :
    ∃ t, collapseHyphens (c :: l) = c :: t := by
  rcases l with _ | ⟨d, rest⟩
  · exact ⟨[], rfl⟩
  · unfold collapseHyphens
    rw [if_neg (fun h => hc h.1)]
    exact ⟨_, rfl⟩

theorem sanitize_cons_v (l : List Char) :
    ∃ t, sanitize ('v' :: l) = 'v' :: t := by
  have hv : ('v' : Char) ≠ '-' := by decide
  have h1 : sanitizeChars ('v' :: l) = 'v' :: sanitizeChars l := rfl
  obtain ⟨t1, ht1⟩ := collapseHyphens_cons_ne 'v' (sanitizeChars l) hv
  obtain ⟨t2, ht2⟩ := rstripHyphens_cons_ne 'v' t1 hv
  refine ⟨t2, ?_⟩
  unfold sanitize stripHyphens
  rw [h1, ht1, ht2, lstripHyphens_cons_ne 'v' t2 hv]

theorem rawName_cons (c p : List Char) : ∃ t, rawName c p = 'v' :: t := by
  unfold rawName
  rcases sanitizedPath p with _ | ⟨x, xs⟩
  · exact ⟨_, rfl⟩
  · exact ⟨_, rfl⟩

theorem sanitizedName_cons_v (c p : List Char) :
    ∃ t, sanitizedName c p = 'v' :: t ∧ sanitizedName c p = sanitize (rawName c p) := by
  obtain ⟨t0, ht0⟩ := rawName_cons c p
  obtain ⟨t, ht⟩ := sanitize_cons_v t0
  rw [← ht0] at ht
  refine ⟨t, ?_, ?_⟩ <;>
    · unfold sanitizedName
      rw [ht]

theorem mem_sanitize_allowed (x : Char) (s : List Char) :
    x ∈ sanitize s → allowedChar x = true := by
  intro hx
  unfold sanitize stripHyphens at hx
  exact mem_sanitizeChars x s
    (mem_collapseHyphens x _ (mem_rstripHyphens x _ (mem_lstripHyphens x _ hx)))

theorem mem_sanitizedName_allowed (x : Char) (c p : List Char) :
    x ∈ sanitizedName c p → allowedChar x = true := by
  obtain ⟨t, -, heq⟩ := sanitizedName_cons_v c p
  rw [heq]
  exact mem_sanitize_allowed x (rawName c p)

theorem hexChar_allowed (n : Nat) : allowedChar (hexChar n) = true := by
  have hball : ∀ m, m < 16 →
      allowedChar (if m < 10 then Char.ofNat (48 + m) else Char.ofNat (87 + m)) = true := by
    decide
  exact hball (n % 16) (Nat.mod_lt n (by decide))

theorem mem_wordHex_allowed (x : Char) (w : Nat) :
    x ∈ wordHex w → allowedChar x = true := by
  intro hx
  simp only [wordHex, List.mem_cons, List.not_mem_nil, or_false] at hx
  rcases hx with h | h | h | h | h | h | h | h <;> (rw [h]; exact hexChar_allowed _)

theorem mem_sha1Hex_allowed (x : Char) (m : List Nat) :
    x ∈ sha1Hex m → allowedChar x = true := by
  intro hx
  have hx2 : x ∈ wordHex (sha1Digest m).h0 ++ (wordHex (sha1Digest m).h1 ++
      (wordHex (sha1Digest m).h2 ++ (wordHex (sha1Digest m).h3 ++
        wordHex (sha1Digest m).h4))) := hx
  rcases List.mem_append.mp hx2 with h | h
  · exact mem_wordHex_allowed x _ h
  rcases List.mem_append.mp h with h | h
  · exact mem_wordHex_allowed x _ h
  rcases List.mem_append.mp h with h | h
  · exact mem_wordHex_allowed x _ h
  rcases List.mem_append.mp h with h | h
  · exact mem_wordHex_allowed x _ h
  exact mem_wordHex_allowed x _ h

theorem sha1Hex_length (m : List Nat) : (sha1Hex m).length = 40 := by
  unfold sha1Hex wordHex
  simp

/-! ## Claim C8 -/

/-- C8: volume-name generation is a pure function of claimName and
mountPath (hence deterministic) whose result is non-empty, uses only
lowercase alphanumerics and hyphens, and is at most 63 characters long;
and whenever the sanitised vol-claim-path form exceeds 63 characters the
result is its truncation to 63 - 7 characters with trailing hyphens
stripped, followed by a hyphen and the first 6 hex characters of the
SHA-1 of the raw name. -/
theorem stable_volume_name_spec (claimName mountPath : String) :
    (stable_volume_name claimName mountPath).data ≠ [] ∧
    (∀ ch ∈ (stable_volume_name claimName mountPath).data, allowedChar ch = true) ∧
    (stable_volume_name claimName mountPath).data.length ≤ 63 ∧
    ((sanitizedName claimName.data mountPath.data).length > 63 →
      (stable_volume_name claimName mountPath).data =
        rstripHyphens ((sanitizedName claimName.data mountPath.data).take 56) ++
          '-' :: (sha1Hex (rawBytes claimName.data mountPath.data)).take 6) := by
  obtain ⟨t, hvt, -⟩ := sanitizedName_cons_v claimName.data mountPath.data
  by_cases hlen : (sanitizedName claimName.data mountPath.data).length ≤ 63
  · have hres : (stable_volume_name claimName mountPath).data =
        sanitizedName claimName.data mountPath.data := by
      simp only [stable_volume_name]
      rw [if_pos hlen]
    refine ⟨?_, ?_, ?_, ?_⟩
    · rw [hres, hvt]
      simp
    · intro ch hch
      rw [hres] at hch
      exact mem_sanitizedName_allowed ch _ _ hch
    · rw [hres]
      exact hlen
    · intro hgt
      omega
  · push_neg at hlen
    have hhlen : ((sha1Hex (rawBytes claimName.data mountPath.data)).take 6).length = 6 := by
      rw [List.length_take, sha1Hex_length]
      decide
    have htake : (sanitizedName claimName.data mountPath.data).take 56 = 'v' :: t.take 55 := by
      rw [hvt, show (56 : Nat) = 55 + 1 from rfl, List.take_succ_cons]
    obtain ⟨t2, ht2⟩ := rstripHyphens_cons_ne 'v' (t.take 55) (by decide)
    have hpre : rstripHyphens ((sanitizedName claimName.data mountPath.data).take 56) =
        'v' :: t2 := by
      rw [htake, ht2]
    have hres : (stable_volume_name claimName mountPath).data =
        ('v' :: t2) ++ '-' :: (sha1Hex (rawBytes claimName.data mountPath.data)).take 6 := by
      simp only [stable_volume_name]
      rw [if_neg (by omega)]
      rw [hhlen]
      norm_num
      rw [hpre]
      simp
    refine ⟨?_, ?_, ?_, ?_⟩
    · rw [hres]
      simp
    · intro ch hch
      rw [hres] at hch
      rcases List.mem_append.mp hch with h | h
      · have h1 : ch ∈ (sanitizedName claimName.data mountPath.data).take 56 :=
          mem_rstripHyphens ch _ (hpre ▸ h)
        have h2 : ch ∈ sanitizedName claimName.data mountPath.data :=
          (List.take_sublist 56 _).subset h1
        exact mem_sanitizedName_allowed ch _ _ h2
      · rcases List.mem_cons.mp h with h | h
        · rw [h]
          decide
        · exact mem_sha1Hex_allowed ch _ ((List.take_sublist 6 _).subset h)
    · rw [hres]
      have h1 : ('v' :: t2).length ≤ 56 := by
        rw [← hpre]
        calc (rstripHyphens ((sanitizedName claimName.data mountPath.data).take 56)).length
            ≤ ((sanitizedName claimName.data mountPath.data).take 56).length :=
              length_rstripHyphens_le _
          _ ≤ 56 := by
              rw [List.length_take]
              exact Nat.min_le_left _ _
      simp only [List.length_append, List.length_cons] at h1 ⊢
      rw [hhlen]
      omega
    · intro _
      rw [hres, hpre]

/-! ## Claim C1 -/

/-- A pod volume backed by a PersistentVolumeClaim. -/
def isPvcVolume (v : PodVolume) : Bool :=
  match v.source with
  | .persistentVolumeClaim _ => true
  | _ => false

/-- The generated volume name always starts with the letter v. -/
theorem stable_volume_name_head (c p : String) :
    ∃ t, (stable_volume_name c p).data = 'v' :: t := by
  obtain ⟨t, hvt, -⟩ := sanitizedName_cons_v c.data p.data
  by_cases hlen : (sanitizedName c.data p.data).length ≤ 63
  · refine ⟨t, ?_⟩
    simp only [stable_volume_name]
    rw [if_pos hlen]
    exact hvt
  · push_neg at hlen
    have hhlen : ((sha1Hex (rawBytes c.data p.data)).take 6).length = 6 := by
      rw [List.length_take, sha1Hex_length]
      decide
    have htake : (sanitizedName c.data p.data).take 56 = 'v' :: t.take 55 := by
      rw [hvt, show (56 : Nat) = 55 + 1 from rfl, List.take_succ_cons]
    obtain ⟨t2, ht2⟩ := rstripHyphens_cons_ne 'v' (t.take 55) (by decide)
    refine ⟨t2 ++ '-' :: (sha1Hex (rawBytes c.data p.data)).take 6, ?_⟩
    simp only [stable_volume_name]
    rw [if_neg (by omega)]
    rw [hhlen]
    norm_num
    rw [htake, ht2]
    simp

/-- The generated volume name is never the reserved name home. -/
theorem stable_volume_name_ne_home (c p : String) : stable_volume_name c p ≠ "home" := by
  obtain ⟨t, ht⟩ := stable_volume_name_head c p
  intro h
  rw [h] at ht
  cases ht

/-- C1: the built Deployment's pod volumes realise the merge of the
flavor's volume list overlaid by the spec's volumes keyed by mountPath
with spec entries winning; the default home empty-dir volume is present
exactly when the merged list is empty or no merged entry targets
/home/dev; a merged entry at /home/dev removes the default home mount
from the container's volumeMounts and mounts a PVC-backed volume there;
and each merged entry is mounted with readOnly defaulted to false. -/
theorem build_deployment_volume_merging (name ns : String) (spec : DevServerSpec)
    (flavor : FlavorSpec) (defaultImage staticImage : String) :
    (∀ p, dlookup p (merge_volumes flavor.volumes spec.volumes) =
        (lastVolumeAt spec.volumes p).or (lastVolumeAt flavor.volumes p)) ∧
    ((build_deployment name ns spec flavor defaultImage staticImage).volumes.filter
        isPvcVolume =
      (final_volumes flavor.volumes spec.volumes).map pvcVolume) ∧
    (∀ v ∈ final_volumes flavor.volumes spec.volumes,
      pvcMount v ∈
        (build_deployment name ns spec flavor defaultImage staticImage).volumeMounts) ∧
    ((⟨"home", .emptyDir⟩ : PodVolume) ∈
        (build_deployment name ns spec flavor defaultImage staticImage).volumes ↔
      (final_volumes flavor.volumes spec.volumes = [] ∨
        ∀ v ∈ final_volumes flavor.volumes spec.volumes, v.mountPath ≠ "/home/dev")) ∧
    ((⟨"home", "/home/dev", none, none, none⟩ : VolumeMount) ∈
        (build_deployment name ns spec flavor defaultImage staticImage).volumeMounts ↔
      ∀ v ∈ final_volumes flavor.volumes spec.volumes, v.mountPath ≠ "/home/dev") ∧
    ((∃ v ∈ final_volumes flavor.volumes spec.volumes, v.mountPath = "/home/dev") →
      (∀ vm ∈ (build_deployment name ns spec flavor defaultImage staticImage).volumeMounts,
        vm.name ≠ "home") ∧
      ∃ v ∈ final_volumes flavor.volumes spec.volumes, v.mountPath = "/home/dev" ∧
        pvcMount v ∈
          (build_deployment name ns spec flavor defaultImage staticImage).volumeMounts ∧
        pvcVolume v ∈
          (build_deployment name ns spec flavor defaultImage staticImage).volumes) := by
  have hvols : (build_deployment name ns spec flavor defaultImage staticImage).volumes =
      (base_volumes name ++
        (if (final_volumes flavor.volumes spec.volumes).isEmpty ||
            !((final_volumes flavor.volumes spec.volumes).any
              (fun v => v.mountPath == "/home/dev")) then
          [⟨"home", .emptyDir⟩] else [])) ++
      (final_volumes flavor.volumes spec.volumes).map pvcVolume := rfl
  have hmnts :
      (build_deployment name ns spec flavor defaultImage staticImage).volumeMounts =
      (if !(final_volumes flavor.volumes spec.volumes).isEmpty &&
          (final_volumes flavor.volumes spec.volumes).any
            (fun v => v.mountPath == "/home/dev") then
        base_volume_mounts.filter (fun vm => vm.name ≠ "home")
      else base_volume_mounts) ++
      (final_volumes flavor.volumes spec.volumes).map pvcMount := rfl
  have hany : ((final_volumes flavor.volumes spec.volumes).any
        (fun v => v.mountPath == "/home/dev") = true) ↔
      ∃ v ∈ final_volumes flavor.volumes spec.volumes, v.mountPath = "/home/dev" := by
    simp [List.any_eq_true]
  have hbase_nohome :
      (⟨"home", .emptyDir⟩ : PodVolume) ∉ base_volumes name := by
    simp [base_volumes]
  have hmap_nohome :
      (⟨"home", .emptyDir⟩ : PodVolume) ∉
        (final_volumes flavor.volumes spec.volumes).map pvcVolume := by
    simp [List.mem_map, pvcVolume]
  have hmap_nohomemount :
      (⟨"home", "/home/dev", none, none, none⟩ : VolumeMount) ∉
        (final_volumes flavor.volumes spec.volumes).map pvcMount := by
    simp [List.mem_map, pvcMount]
  refine ⟨?_, ?_, ?_, ?_, ?_, ?_⟩
  · intro p
    exact merge_volumes_lookup flavor.volumes spec.volumes p
  · rw [hvols, List.filter_append, List.filter_append]
    have h1 : (base_volumes name).filter isPvcVolume = [] := by
      simp [base_volumes, isPvcVolume, List.filter]
    have h2 : ∀ b : Bool,
        ((if b then [(⟨"home", .emptyDir⟩ : PodVolume)] else []).filter isPvcVolume) = [] := by
      intro b
      cases b <;> simp [isPvcVolume, List.filter]
    have h3 : ((final_volumes flavor.volumes spec.volumes).map pvcVolume).filter
        isPvcVolume = (final_volumes flavor.volumes spec.volumes).map pvcVolume := by
      rw [List.filter_eq_self]
      intro a ha
      obtain ⟨v, -, hv⟩ := List.mem_map.mp ha
      rw [← hv]
      simp [pvcVolume, isPvcVolume]
    rw [h1, h2, h3]
    simp
  · intro v hv
    rw [hmnts]
    exact List.mem_append_right _ (List.mem_map_of_mem pvcMount hv)
  · rw [hvols]
    simp only [List.mem_append, hbase_nohome, hmap_nohome, false_or, or_false]
    by_cases hcond : ((final_volumes flavor.volumes spec.volumes).isEmpty ||
        !((final_volumes flavor.volumes spec.volumes).any
          (fun v => v.mountPath == "/home/dev"))) = true
    · rw [if_pos hcond]
      simp only [List.mem_singleton, true_iff]
      rcases Bool.or_eq_true_iff.mp hcond with h | h
      · exact Or.inl (List.isEmpty_iff.mp h)
      · refine Or.inr ?_
        intro v hv hp
        have hx : (final_volumes flavor.volumes spec.volumes).any
            (fun v => v.mountPath == "/home/dev") = true := hany.mpr ⟨v, hv, hp⟩
        rw [hx] at h
        cases h
    · rw [if_neg hcond]
      simp only [List.not_mem_nil, false_iff]
      intro hrhs
      apply hcond
      rcases hrhs with h | h
      · rw [h]
        rfl
      · refine Bool.or_eq_true_iff.mpr (Or.inr ?_)
        have hx : ¬ ((final_volumes flavor.volumes spec.volumes).any
            (fun v => v.mountPath == "/home/dev") = true) := by
          intro hxx
          obtain ⟨v, hv, hp⟩ := hany.mp hxx
          exact h v hv hp
        rw [Bool.not_eq_true] at hx
        rw [hx]
        rfl
  · rw [hmnts]
    simp only [List.mem_append, hmap_nohomemount, or_false]
    by_cases hcond : (!(final_volumes flavor.volumes spec.volumes).isEmpty &&
        (final_volumes flavor.volumes spec.volumes).any
          (fun v => v.mountPath == "/home/dev")) = true
    · rw [if_pos hcond]
      have h1 : (⟨"home", "/home/dev", none, none, none⟩ : VolumeMount) ∉
          base_volume_mounts.filter (fun vm => vm.name ≠ "home") := by
        intro hmem
        have := (List.mem_filter.mp hmem).2
        simp at this
      simp only [h1, false_iff]
      obtain ⟨v, hv, hp⟩ := hany.mp (Bool.and_eq_true_iff.mp hcond).2
      intro hall
      exact hall v hv hp
    · rw [if_neg hcond]
      have h1 : (⟨"home", "/home/dev", none, none, none⟩ : VolumeMount) ∈
          base_volume_mounts := by
        simp [base_volume_mounts]
      simp only [h1, true_iff]
      intro v hv hp
      apply hcond
      refine Bool.and_eq_true_iff.mpr ⟨?_, hany.mpr ⟨v, hv, hp⟩⟩
      have : final_volumes flavor.volumes spec.volumes ≠ [] := by
        intro h
        rw [h] at hv
        cases hv
      simp [List.isEmpty_iff, this]
  · intro hex
    have hcond : (!(final_volumes flavor.volumes spec.volumes).isEmpty &&
        (final_volumes flavor.volumes spec.volumes).any
          (fun v => v.mountPath == "/home/dev")) = true := by
      obtain ⟨v, hv, hp⟩ := hex
      refine Bool.and_eq_true_iff.mpr ⟨?_, hany.mpr ⟨v, hv, hp⟩⟩
      have : final_volumes flavor.volumes spec.volumes ≠ [] := by
        intro h
        rw [h] at hv
        cases hv
      simp [List.isEmpty_iff, this]
    constructor
    · intro vm hvm
      rw [hmnts, if_pos hcond] at hvm
      rcases List.mem_append.mp hvm with h | h
      · have := (List.mem_filter.mp h).2
        simpa using this
      · obtain ⟨v, -, hveq⟩ := List.mem_map.mp h
        rw [← hveq]
        exact stable_volume_name_ne_home v.claimName v.mountPath
    · obtain ⟨v, hv, hp⟩ := hex
      refine ⟨v, hv, hp, ?_, ?_⟩
      · rw [hmnts]
        exact List.mem_append_right _ (List.mem_map_of_mem pvcMount hv)
      · rw [hvols]
        exact List.mem_append_right _ (List.mem_map_of_mem pvcVolume hv)
